import Mathlib

/-!
Verification of the rookiedb disk space manager core: a shallow embedding of
`src/common/bit.rs`, `src/io/partition.rs` and `src/io/storage.rs`, together
with theorems settling the specification claims about them.

Modelling conventions:
* `u8` / `u16` / `usize` values are `Nat`; wrap-around is written explicitly
  (`% 65536`, `% 2 ^ 64`) exactly where the Rust arithmetic can wrap.
* Rust `Vec<u8>` buffers are `List Nat`; `Vec::insert` (which shifts and
  panics when the index exceeds the length) is `vecInsert` returning `none`
  on the panicking path.
* Fallible functions return explicit result types.  `SetRes.ub` marks the
  unchecked out-of-bounds slice access in `Bit::set_bit` (undefined
  behavior), `POut.panic` marks paths on which the Rust code panics.
* File I/O (positioned reads/writes, sync) is assumed to succeed; it never
  touches the in-memory state that the claims are about, so the embedding
  drops the byte transfers and keeps the guards and state updates.
-/

namespace RookieDb

/-- `PAGE_SIZE` from src/common/constant.rs: size of a page in bytes. -/
def PAGE_SIZE : ℕ := 4096

/-- `MAX_HEADER_PAGE` from src/common/constant.rs: `PAGE_SIZE / 2`. -/
def MAX_HEADER_PAGE : ℕ := PAGE_SIZE / 2

/-- `DATA_PAGES_PER_HEADER` from src/common/constant.rs: `PAGE_SIZE * 8`. -/
def DATA_PAGES_PER_HEADER : ℕ := PAGE_SIZE * 8

/-- The `Bit` enum of src/common/bit.rs. -/
inductive Bit : Type
  | zero
  | one
deriving DecidableEq, Repr

/-- Error kinds carried by the `anyhow!` errors of the source, one
constructor per distinct error message. -/
inductive Err : Type
  /-- IllegalArgumentError (bit index out of bounds / empty byte array). -/
  | illegalArgument
  /-- page at (partition, header, index) already allocated. -/
  | alreadyAllocated
  /-- page is not allocated / cannot free unallocated page. -/
  | notAllocated
  /-- no free pages - partition has reached max size. -/
  | capacityExceeded
  /-- header page should have free space, but does not. -/
  | headerNoFree
deriving DecidableEq, Repr

/-- Rust `Result<α, anyhow::Error>`. -/
inductive Res (α : Type) : Type
  | ok (a : α)
  | err (e : Err)
deriving DecidableEq, Repr

/-- Outcome of `Bit::set_bit`, whose slice access is unchecked: `ub` is the
out-of-bounds `get_unchecked_mut` (undefined behavior in Rust). -/
inductive SetRes : Type
  | ok (l : List ℕ)
  | err (e : Err)
  | ub
deriving DecidableEq, Repr

/-- `Bit::get_bit_u8` from src/common/bit.rs: the i-th bit of a byte,
0 being the most significant.  Source: error when `i >= 8`, otherwise
`(v >> (7 - i)) & 1` decides zero/one. -/
def Bit.get_bit_u8 (v i : ℕ) : Res Bit :=
  if 8 ≤ i then .err .illegalArgument
  else if (v >>> (7 - i)) &&& 1 = 0 then .ok .zero else .ok .one

/-- `Bit::set_bit_u8` from src/common/bit.rs: error when `i >= 8`, otherwise
with `mask = 1 << (7 - i)` return `v & !mask` (zero) or `v | mask` (one);
`!mask` on a `u8` is `255 ^^^ mask`. -/
def Bit.set_bit_u8 (v i : ℕ) (bit : Bit) : Res ℕ :=
  if 8 ≤ i then .err .illegalArgument
  else
    match bit with
    | .zero => .ok (v &&& (255 ^^^ (1 <<< (7 - i))))
    | .one => .ok (v ||| (1 <<< (7 - i)))

/-- `Bit::get_bit` from src/common/bit.rs: bounds-checked
(`v.len() == 0 || i >= (v.len() * 8) as u32` errors), then reads byte
`i / 8` at bit `i % 8`.  The length bound is computed `as u32`, so it is
truncated modulo `2 ^ 32`: for buffers of `2 ^ 29` bytes or more the bound
wraps and in-range indices error. -/
def Bit.get_bit (v : List ℕ) (i : ℕ) : Res Bit :=
  if v.length = 0 ∨ v.length * 8 % 4294967296 ≤ i then .err .illegalArgument
  else Bit.get_bit_u8 (v.getD (i / 8) 0) (i % 8)

/-- `Bit::set_bit` from src/common/bit.rs.  The source performs
`unsafe { v.get_unchecked_mut((i / 8) as usize) }` with NO bounds check, so
an index whose byte position is outside the slice is undefined behavior
(`ub`), not an error; the only checked failure is the dead `i % 8 >= 8`
branch inside `set_bit_u8`. -/
def Bit.set_bit (v : List ℕ) (i : ℕ) (bit : Bit) : SetRes :=
  if v.length ≤ i / 8 then .ub
  else
    match Bit.set_bit_u8 (v.getD (i / 8) 0) (i % 8) bit with
    | .err e => .err e
    | .ok b => .ok (v.set (i / 8) b)

/-- `u8::count_ones` on a byte (exact for `v < 256`, the `u8` domain). -/
def popCount8 (v : ℕ) : ℕ :=
  v % 2 + v / 2 % 2 + v / 4 % 2 + v / 8 % 2 +
    v / 16 % 2 + v / 32 % 2 + v / 64 % 2 + v / 128 % 2

/-- `Bit::count_ones` from src/common/bit.rs: sum of per-byte popcounts. -/
def Bit.count_ones (v : List ℕ) : ℕ := (v.map popCount8).sum

/-! ### Byte-level lemmas about `get_bit_u8` / `set_bit_u8` -/

lemma shr_and_one (v k : ℕ) : (v >>> k) &&& 1 = v / 2 ^ k % 2 := by
  rw [Nat.and_one_is_mod, Nat.shiftRight_eq_div_pow]

/-- In bounds, `get_bit_u8` reads `Nat.testBit` at position `7 - j`. -/
lemma get_bit_u8_eq_testBit (v j : ℕ) (hj : j < 8) :
    Bit.get_bit_u8 v j = .ok (if v.testBit (7 - j) then Bit.one else Bit.zero) := by
  unfold Bit.get_bit_u8
  rw [if_neg (by omega), shr_and_one]
  rcases Nat.mod_two_eq_zero_or_one (v / 2 ^ (7 - j)) with h | h <;>
    simp [h, Nat.testBit_to_div_mod]

lemma set_bit_u8_one (v j : ℕ) (hj : j < 8) :
    Bit.set_bit_u8 v j .one = .ok (v ||| 2 ^ (7 - j)) := by
  unfold Bit.set_bit_u8
  rw [if_neg (by omega)]
  simp [Nat.shiftLeft_eq]

lemma set_bit_u8_zero (v j : ℕ) (hj : j < 8) :
    Bit.set_bit_u8 v j .zero = .ok (v &&& (255 ^^^ 2 ^ (7 - j))) := by
  unfold Bit.set_bit_u8
  rw [if_neg (by omega)]
  simp [Nat.shiftLeft_eq]

lemma testBit_255 (k : ℕ) (hk : k < 8) : Nat.testBit 255 k = true := by
  have h : (255 : ℕ) = 2 ^ 8 - 1 := by norm_num
  rw [h, Nat.testBit_two_pow_sub_one]
  simpa using hk

/-- Setting a bit then reading the same bit gives the written value, and all
other bit positions of the byte are unchanged. -/
lemma byte_roundtrip (b j : ℕ) (v : Bit) (hj : j < 8) :
    ∃ b', Bit.set_bit_u8 b j v = .ok b' ∧ Bit.get_bit_u8 b' j = .ok v ∧
      ∀ j', j' < 8 → j' ≠ j → Bit.get_bit_u8 b' j' = Bit.get_bit_u8 b j' := by
  cases v with
  | one =>
    refine ⟨b ||| 2 ^ (7 - j), set_bit_u8_one b j hj, ?_, ?_⟩
    · rw [get_bit_u8_eq_testBit _ j hj]
      simp [Nat.testBit_two_pow_self]
    · intro j' hj' hne
      rw [get_bit_u8_eq_testBit _ j' hj', get_bit_u8_eq_testBit b j' hj']
      have hne7 : (7 - j : ℕ) ≠ 7 - j' := by omega
      simp [Nat.testBit_two_pow_of_ne hne7]
  | zero =>
    refine ⟨b &&& (255 ^^^ 2 ^ (7 - j)), set_bit_u8_zero b j hj, ?_, ?_⟩
    · rw [get_bit_u8_eq_testBit _ j hj]
      simp [Nat.testBit_two_pow_self, testBit_255 (7 - j) (by omega)]
    · intro j' hj' hne
      rw [get_bit_u8_eq_testBit _ j' hj', get_bit_u8_eq_testBit b j' hj']
      have hne7 : (7 - j : ℕ) ≠ 7 - j' := by omega
      have h255 := testBit_255 (7 - j') (by omega)
      simp [Nat.testBit_two_pow_of_ne hne7, h255]

/-! ### List-level lemmas about `get_bit` / `set_bit` -/

lemma getD_set_self {α : Type} (l : List α) (n : ℕ) (a d : α) (h : n < l.length) :
    (l.set n a).getD n d = a := by
  induction l generalizing n with
  | nil => simp at h
  | cons b t ih =>
    cases n with
    | zero => rfl
    | succ m =>
      simp only [List.set, List.getD_cons_succ]
      exact ih m (by simpa using h)

lemma getD_set_ne {α : Type} (l : List α) (n m : ℕ) (a d : α) (h : n ≠ m) :
    (l.set n a).getD m d = l.getD m d := by
  induction l generalizing n m with
  | nil => rfl
  | cons b t ih =>
    cases n with
    | zero =>
      cases m with
      | zero => exact absurd rfl h
      | succ k => rfl
    | succ n1 =>
      cases m with
      | zero => rfl
      | succ k =>
        simp only [List.set, List.getD_cons_succ]
        exact ih n1 k (by omega)

lemma getD_eq_of_get? {α : Type} {l : List α} {n : ℕ} {a : α} (d : α)
    (h : l.get? n = some a) : l.getD n d = a := by
  induction l generalizing n with
  | nil => simp [List.get?] at h
  | cons b t ih =>
    cases n with
    | zero => simp [List.get?] at h; simp [h]
    | succ m => exact ih (by simpa [List.get?] using h)

lemma get?_some_lt {α : Type} {l : List α} {n : ℕ} {a : α}
    (h : l.get? n = some a) : n < l.length := by
  induction l generalizing n with
  | nil => simp [List.get?] at h
  | cons b t ih =>
    cases n with
    | zero => simp
    | succ m => simpa using ih (by simpa [List.get?] using h)

/-- An in-bounds `set_bit` succeeds and produces the expected byte update. -/
lemma set_bit_succeeds (buf : List ℕ) (i : ℕ) (v : Bit) (hi : i < buf.length * 8) :
    ∃ b', Bit.set_bit_u8 (buf.getD (i / 8) 0) (i % 8) v = .ok b' ∧
      Bit.set_bit buf i v = SetRes.ok (buf.set (i / 8) b') := by
  have hdiv : i / 8 < buf.length := (Nat.div_lt_iff_lt_mul (by norm_num)).2 hi
  have hm : i % 8 < 8 := Nat.mod_lt _ (by norm_num)
  obtain ⟨b', hs, _, _⟩ := byte_roundtrip (buf.getD (i / 8) 0) (i % 8) v hm
  refine ⟨b', hs, ?_⟩
  unfold Bit.set_bit
  rw [if_neg (by omega), hs]

/-- A successful `set_bit` at index `k` leaves every other bit index reading
exactly as before (out-of-range indices keep erroring identically). -/
lemma set_bit_frame {content content2 : List ℕ} {k : ℕ} {v : Bit}
    (hs : Bit.set_bit content k v = SetRes.ok content2) :
    ∀ j, j ≠ k → Bit.get_bit content2 j = Bit.get_bit content j := by
  intro j hne
  unfold Bit.set_bit at hs
  by_cases hk : content.length ≤ k / 8
  · rw [if_pos hk] at hs; cases hs
  rw [if_neg hk] at hs
  have hm : k % 8 < 8 := Nat.mod_lt _ (by norm_num)
  obtain ⟨b', hbs, _, hframe⟩ := byte_roundtrip (content.getD (k / 8) 0) (k % 8) v hm
  rw [hbs] at hs
  cases hs
  unfold Bit.get_bit
  rw [List.length_set]
  by_cases hrange : content.length = 0 ∨ content.length * 8 % 4294967296 ≤ j
  · rw [if_pos hrange, if_pos hrange]
  rw [if_neg hrange, if_neg hrange]
  by_cases hbyte : j / 8 = k / 8
  · have hjm : j % 8 ≠ k % 8 := by
      have h1 := Nat.div_add_mod j 8
      have h2 := Nat.div_add_mod k 8
      omega
    rw [hbyte, getD_set_self _ _ _ _ (by omega)]
    have := hframe (j % 8) (Nat.mod_lt _ (by norm_num)) hjm
    rw [this]
  · rw [getD_set_ne _ _ _ _ _ (by omega)]

/-- A successful `set_bit` at index `k` makes `get_bit` at `k` read back the
written value, provided the buffer is small enough that the u32-truncated
length bound of `get_bit` is exact. -/
lemma set_bit_get_self {content content2 : List ℕ} {k : ℕ} {v : Bit}
    (hsmall : content.length * 8 < 4294967296)
    (hs : Bit.set_bit content k v = SetRes.ok content2) :
    Bit.get_bit content2 k = Res.ok v := by
  unfold Bit.set_bit at hs
  by_cases hk : content.length ≤ k / 8
  · rw [if_pos hk] at hs; cases hs
  rw [if_neg hk] at hs
  have hm : k % 8 < 8 := Nat.mod_lt _ (by norm_num)
  obtain ⟨b', hbs, hself, _⟩ := byte_roundtrip (content.getD (k / 8) 0) (k % 8) v hm
  rw [hbs] at hs
  cases hs
  unfold Bit.get_bit
  rw [List.length_set, if_neg (by omega)]
  rw [getD_set_self _ _ _ _ (by omega)]
  exact hself

lemma replicate_getD_zero {α : Type} (n : ℕ) (a d : α) (h : 0 < n) :
    (List.replicate n a).getD 0 d = a := by
  cases n with
  | zero => omega
  | succ m => rfl

/-- C5 counterexample.  On the `2 ^ 29`-byte buffer of zeros, index 0 is a
valid index (`0 < len * 8`) and `set_bit` succeeds, but `get_bit` at index
0 afterwards fails with IllegalArgument instead of returning the written
bit: the length bound `(v.len() * 8) as u32` truncates `2 ^ 32` to 0. -/
theorem set_bit_get_bit_roundtrip_truncation_counterexample :
    (0 : ℕ) < (List.replicate 536870912 (0 : ℕ)).length * 8 ∧
      Bit.set_bit (List.replicate 536870912 (0 : ℕ)) 0 .one =
        SetRes.ok ((List.replicate 536870912 (0 : ℕ)).set 0 128) ∧
      Bit.get_bit ((List.replicate 536870912 (0 : ℕ)).set 0 128) 0 =
        Res.err .illegalArgument := by
  refine ⟨?_, ?_, ?_⟩
  · rw [List.length_replicate]
    norm_num
  · unfold Bit.set_bit
    rw [if_neg (by rw [List.length_replicate]; omega)]
    rw [show (0 : ℕ) / 8 = 0 from rfl, show (0 : ℕ) % 8 = 0 from rfl]
    rw [replicate_getD_zero _ _ _ (by norm_num)]
    rw [show Bit.set_bit_u8 0 0 .one = Res.ok 128 from by decide]
  · have hcond : ((List.replicate 536870912 (0 : ℕ)).set 0 128).length = 0 ∨
        ((List.replicate 536870912 (0 : ℕ)).set 0 128).length * 8 %
          4294967296 ≤ 0 := by
      right
      rw [List.length_set, List.length_replicate]
    unfold Bit.get_bit
    rw [if_pos hcond]

/-- C5 as amended.  For every byte array small enough that the u32
truncation of the length bound in `get_bit` is exact (`len * 8 < 2 ^ 32`,
i.e. fewer than `2 ^ 29` bytes), every valid bit index `i < len * 8` and
every bit value `v`: `set_bit` succeeds, reading bit `i` afterwards returns
`v`, and every other bit index reads exactly as before. -/
theorem set_bit_get_bit_roundtrip_frame (buf : List ℕ) (i : ℕ) (v : Bit)
    (hsmall : buf.length * 8 < 4294967296) (hi : i < buf.length * 8) :
    ∃ buf2, Bit.set_bit buf i v = SetRes.ok buf2 ∧
      Bit.get_bit buf2 i = Res.ok v ∧
      ∀ j, j ≠ i → Bit.get_bit buf2 j = Bit.get_bit buf j := by
  obtain ⟨b', _, hset⟩ := set_bit_succeeds buf i v hi
  exact ⟨buf.set (i / 8) b', hset, set_bit_get_self hsmall hset,
    fun j hj => set_bit_frame hset j hj⟩

/-- Witness for the amended C5 at `buf = [0, 0]`, `i = 3`, `v = one`. -/
theorem set_bit_get_bit_roundtrip_frame_witness :
    (([0, 0] : List ℕ).length * 8 < 4294967296) ∧
      (3 < ([0, 0] : List ℕ).length * 8) ∧
      ∃ buf2, Bit.set_bit [0, 0] 3 .one = SetRes.ok buf2 ∧
        Bit.get_bit buf2 3 = Res.ok .one ∧
        ∀ j, j ≠ 3 → Bit.get_bit buf2 j = Bit.get_bit [0, 0] j :=
  ⟨by decide, by decide,
    set_bit_get_bit_roundtrip_frame [0, 0] 3 .one (by decide) (by decide)⟩

/-- C6.  At the out-of-bounds index `i = 8` on the one-byte array `[0]` (and
on the empty array at index 0), `get_bit` fails with IllegalArgument as the
spec says, but `set_bit` performs the unchecked out-of-bounds slice access
(undefined behavior) instead of returning an error. -/
theorem set_bit_out_of_bounds_unchecked :
    Bit.get_bit [0] 8 = Res.err .illegalArgument ∧
      Bit.set_bit [0] 8 .one = SetRes.ub ∧
      Bit.get_bit [] 0 = Res.err .illegalArgument ∧
      Bit.set_bit [] 0 .one = SetRes.ub := by
  refine ⟨?_, ?_, ?_, ?_⟩ <;> decide

/-! ### The partition model (src/io/partition.rs)

The in-memory state of a `PartitionHandle` consists of the master page
vector (`Vec<u16>`, created EMPTY via `Vec::with_capacity`) and the header
page vector (`Vec<Vec<u8>>`, also created empty).  The file handle, lock,
partition number and recovery manager do not enter any claim: file I/O is
modelled as succeeding, the lock is a trivial byte in the source, and the
recovery hooks are commented out in the source. -/

/-- In-memory state of `PartitionHandle`: `master_page : Vec<u16>` and
`header_pages : Vec<Vec<u8>>`. -/
structure PartitionHandle : Type where
  master_page : List ℕ
  header_pages : List (List ℕ)
deriving DecidableEq, Repr

/-- Outcome of a partition operation.  Rust methods mutate `self` in place
even on paths that return `Err`, so both `ok` and `err` carry the resulting
state; `panic` marks paths on which the Rust code panics (`Vec::insert`
with index beyond the length, `Buf::get_u16` past the remaining bytes). -/
inductive POut (α : Type) : Type
  | ok (s : PartitionHandle) (a : α)
  | err (s : PartitionHandle) (e : Err)
  | panic
deriving DecidableEq, Repr

/-- `Vec::insert(index, element)`: shifts everything at and after `index`
right; panics (`none`) when `index > len`. -/
def vecInsert {α : Type} (l : List α) (i : ℕ) (a : α) : Option (List α) :=
  if i ≤ l.length then some (l.take i ++ a :: l.drop i) else none

namespace PartitionHandle

/-- `PartitionHandle::new` followed by `open` on a newly created
(zero-length) file: `Vec::with_capacity` leaves both vectors EMPTY, and the
new-file branch of `open` only writes the (empty) master page to disk, so
the in-memory state is two empty vectors. -/
def openFresh : PartitionHandle := ⟨[], []⟩

/-- `open` on a zero-length backing file, from any in-memory state: the
new-file branch calls `write_master_page` (disk only) and leaves the
in-memory vectors untouched. -/
def open_on_new_file (s : PartitionHandle) : POut Unit := .ok s ()

/-- `open` on a pre-existing (non-empty) backing file always panics:
`BytesMut::with_capacity(PAGE_SIZE)` has length 0, so `read_at` fills
nothing and the first `buf.get_u16()` panics with fewer than 2 bytes
remaining.  No successful run exists. -/
def open_on_existing_file (_s : PartitionHandle) : POut Unit := .panic

/-- `PartitionHandle::alloc_page_specific`.  Faithful points: a missing
header slot is lazily filled by `Vec::insert` of a `Vec::with_capacity`
buffer of LENGTH 0 (panicking when `header_index` exceeds the vector
length); the master counter is updated with `Vec::insert` (shifting, and
truncating the popcount to `u16`); errors from `Bit::get_bit` propagate via
`?` after the lazy insertion already happened. -/
def alloc_page_specific (s : PartitionHandle) (header_index page_index : ℕ) :
    POut ℕ :=
  let lazily : Option PartitionHandle :=
    match s.header_pages.get? header_index with
    | some _ => some s
    | none =>
      match vecInsert s.header_pages header_index [] with
      | some hp => some { s with header_pages := hp }
      | none => none
  match lazily with
  | none => .panic
  | some s1 =>
    let header_content := s1.header_pages.getD header_index []
    match Bit.get_bit header_content page_index with
    | .err e => .err s1 e
    | .ok .one => .err s1 .alreadyAllocated
    | .ok .zero =>
      match Bit.set_bit header_content page_index .one with
      | .ub => .panic
      | .err e => .err s1 e
      | .ok content2 =>
        let s2 := { s1 with header_pages := s1.header_pages.set header_index content2 }
        match vecInsert s2.master_page header_index (Bit.count_ones content2 % 65536) with
        | none => .panic
        | some mp => .ok { s2 with master_page := mp }
            (page_index + header_index * DATA_PAGES_PER_HEADER)

/-- The header-scan loop of `alloc_page`: first `i` in `[start, start+fuel)`
whose master entry exists (`Vec::get` returns `Some`) and is below
`DATA_PAGES_PER_HEADER`; indices without a master entry are skipped. -/
def findFreeHeader (mp : List ℕ) : ℕ → ℕ → Option ℕ
  | _, 0 => none
  | i, n + 1 =>
    match mp.get? i with
    | some c =>
      if c < DATA_PAGES_PER_HEADER then some i else findFreeHeader mp (i + 1) n
    | none => findFreeHeader mp (i + 1) n

/-- The bit-scan loop of `alloc_page`: first zero bit of the header bitmap
among indices `[start, start+fuel)`; a `Bit::get_bit` error propagates
(the source applies `?` inside the loop). -/
def scanFreeBit (content : List ℕ) : ℕ → ℕ → Res (Option ℕ)
  | _, 0 => .ok none
  | i, n + 1 =>
    match Bit.get_bit content i with
    | .err e => .err e
    | .ok .zero => .ok (some i)
    | .ok .one => scanFreeBit content (i + 1) n

/-- `PartitionHandle::alloc_page`: scan master slots `0..MAX_HEADER_PAGE`
for a header with spare capacity (error `capacityExceeded` when none),
choose page index 0 when that header has no in-memory bitmap, otherwise the
first zero bit (error `headerNoFree` when the bitmap has no zero bit), and
delegate to `alloc_page_specific`. -/
def alloc_page (s : PartitionHandle) : POut ℕ :=
  match findFreeHeader s.master_page 0 MAX_HEADER_PAGE with
  | none => .err s .capacityExceeded
  | some header_index =>
    match s.header_pages.get? header_index with
    | none => s.alloc_page_specific header_index 0
    | some header_content =>
      match scanFreeBit header_content 0 DATA_PAGES_PER_HEADER with
      | .err e => .err s e
      | .ok none => .err s .headerNoFree
      | .ok (some page_index) => s.alloc_page_specific header_index page_index

/-- `PartitionHandle::free_page`: errors when the header has no in-memory
bitmap or the bit is already 0; otherwise clears the bit, recomputes the
master counter via `Vec::insert`, and persists (disk writes modelled as
succeeding). -/
def free_page (s : PartitionHandle) (page_num : ℕ) : POut Unit :=
  let header_index := page_num / DATA_PAGES_PER_HEADER
  let page_index := page_num % DATA_PAGES_PER_HEADER
  match s.header_pages.get? header_index with
  | none => .err s .notAllocated
  | some header_content =>
    match Bit.get_bit header_content page_index with
    | .err e => .err s e
    | .ok .zero => .err s .notAllocated
    | .ok .one =>
      match Bit.set_bit header_content page_index .zero with
      | .ub => .panic
      | .err e => .err s e
      | .ok content2 =>
        let s2 := { s with header_pages := s.header_pages.set header_index content2 }
        match vecInsert s2.master_page header_index (Bit.count_ones content2 % 65536) with
        | none => .panic
        | some mp => .ok { s2 with master_page := mp } ()

/-- Inner loop of `free_data_pages` over one header bitmap: collect the set
bit indices in `[start, start+fuel)`; `Bit::get_bit` errors propagate. -/
def collectHeader (content : List ℕ) : ℕ → ℕ → Res (List ℕ)
  | _, 0 => .ok []
  | j, n + 1 =>
    match Bit.get_bit content j with
    | .err e => .err e
    | .ok .one =>
      match collectHeader content (j + 1) n with
      | .err e => .err e
      | .ok r => .ok (j :: r)
    | .ok .zero => collectHeader content (j + 1) n

/-- Outer collection loop of `free_data_pages`: skip headers whose master
counter is present and 0, skip headers without an in-memory bitmap, and
collect `(header, bit)` pairs for set bits. -/
def collectAux (s : PartitionHandle) : ℕ → ℕ → Res (List (ℕ × ℕ))
  | _, 0 => .ok []
  | i, n + 1 =>
    if s.master_page.get? i = some 0 then collectAux s (i + 1) n
    else
      match s.header_pages.get? i with
      | none => collectAux s (i + 1) n
      | some content =>
        match collectHeader content 0 DATA_PAGES_PER_HEADER with
        | .err e => .err e
        | .ok js =>
          match collectAux s (i + 1) n with
          | .err e => .err e
          | .ok rest => .ok (js.map (fun j => (i, j)) ++ rest)

/-- The collection phase of `free_data_pages` over all header slots. -/
def collectAll (s : PartitionHandle) : Res (List (ℕ × ℕ)) :=
  collectAux s 0 MAX_HEADER_PAGE

/-- The freeing phase of `free_data_pages`: free each collected pair in
order, propagating the first error (`?` in the source loop). -/
def freeList (s : PartitionHandle) : List (ℕ × ℕ) → POut Unit
  | [] => .ok s ()
  | (i, j) :: rest =>
    match s.free_page (i * DATA_PAGES_PER_HEADER + j) with
    | .ok s1 _ => freeList s1 rest
    | .err s1 e => .err s1 e
    | .panic => .panic

/-- `PartitionHandle::free_data_pages`: collect all allocated `(header,
bit)` pairs first, then free them one by one. -/
def free_data_pages (s : PartitionHandle) : POut Unit :=
  match collectAll s with
  | .err e => .err s e
  | .ok pairs => freeList s pairs

/-- `PartitionHandle::is_not_allocated_page`: true when the header index is
out of range or the master counter is present and 0; otherwise reads the
bit when a bitmap is loaded (propagating `Bit::get_bit` errors), and -
faithfully to the source - returns FALSE when no bitmap is loaded. -/
def is_not_allocated_page (s : PartitionHandle) (page_num : ℕ) : Res Bool :=
  let header_index := page_num / DATA_PAGES_PER_HEADER
  let page_index := page_num % DATA_PAGES_PER_HEADER
  if MAX_HEADER_PAGE ≤ header_index then .ok true
  else if s.master_page.get? header_index = some 0 then .ok true
  else
    match s.header_pages.get? header_index with
    | some v =>
      match Bit.get_bit v page_index with
      | .err e => .err e
      | .ok .zero => .ok true
      | .ok .one => .ok false
    | none => .ok false

/-- `PartitionHandle::read_page`: the `is_not_allocated_page` guard (errors
propagate via `?`, a true result errors with NotAllocated), then a
positioned read against the file, modelled as succeeding. -/
def read_page (s : PartitionHandle) (page_num : ℕ) : Res Unit :=
  match s.is_not_allocated_page page_num with
  | .err e => .err e
  | .ok true => .err .notAllocated
  | .ok false => .ok ()

/-- `PartitionHandle::write_page`: same guard as `read_page`, then a
positioned write plus `sync_data`, modelled as succeeding. -/
def write_page (s : PartitionHandle) (page_num : ℕ) : Res Unit :=
  match s.is_not_allocated_page page_num with
  | .err e => .err e
  | .ok true => .err .notAllocated
  | .ok false => .ok ()

/-- Offset of the master page in the backing file. -/
def master_page_offset : ℕ := 0

/-- Offset of header page `header_index` in the backing file. -/
def header_page_offset (header_index : ℕ) : ℕ :=
  (1 + (DATA_PAGES_PER_HEADER + 1) * header_index) * PAGE_SIZE

/-- Offset of data page `page_num` in the backing file. -/
def data_page_offset (page_num : ℕ) : ℕ :=
  (1 + 1 + page_num / DATA_PAGES_PER_HEADER + page_num) * PAGE_SIZE

end PartitionHandle

/-- Partition states reachable from a fresh open by sequences of SUCCESSFUL
operations (open, alloc_page, alloc_page_specific, free_page,
free_data_pages). -/
inductive Reachable : PartitionHandle → Prop
  | base : Reachable PartitionHandle.openFresh
  | openNew {s s' : PartitionHandle} : Reachable s →
      s.open_on_new_file = POut.ok s' () → Reachable s'
  | openExisting {s s' : PartitionHandle} : Reachable s →
      s.open_on_existing_file = POut.ok s' () → Reachable s'
  | allocPage {s s' : PartitionHandle} {n : ℕ} : Reachable s →
      s.alloc_page = POut.ok s' n → Reachable s'
  | allocSpecific {s s' : PartitionHandle} {h p n : ℕ} : Reachable s →
      s.alloc_page_specific h p = POut.ok s' n → Reachable s'
  | freePage {s s' : PartitionHandle} {p : ℕ} : Reachable s →
      s.free_page p = POut.ok s' () → Reachable s'
  | freeAll {s s' : PartitionHandle} : Reachable s →
      s.free_data_pages = POut.ok s' () → Reachable s'

/-- The C1 invariant: every loaded header bitmap agrees with its master
counter (counter equals the bitmap popcount). -/
def masterMatchesBitmaps (s : PartitionHandle) : Prop :=
  ∀ h, h < s.header_pages.length →
    s.master_page.get? h = some (Bit.count_ones (s.header_pages.getD h []))

/-! ### Behavior of the operations on the freshly opened state -/

lemma findFreeHeader_nil (n i : ℕ) : PartitionHandle.findFreeHeader [] i n = none := by
  induction n generalizing i with
  | zero => rfl
  | succ m ih =>
    unfold PartitionHandle.findFreeHeader
    simp [List.get?, ih]

lemma alloc_page_openFresh :
    PartitionHandle.openFresh.alloc_page =
      POut.err PartitionHandle.openFresh .capacityExceeded := by
  unfold PartitionHandle.alloc_page
  simp [PartitionHandle.openFresh, findFreeHeader_nil]

lemma alloc_page_specific_openFresh_zero :
    PartitionHandle.openFresh.alloc_page_specific 0 0 =
      POut.err ⟨[], [[]]⟩ .illegalArgument := by
  decide

lemma alloc_page_specific_openFresh_not_ok (h p : ℕ) (s' : PartitionHandle)
    (n : ℕ) :
    PartitionHandle.openFresh.alloc_page_specific h p ≠ POut.ok s' n := by
  unfold PartitionHandle.alloc_page_specific
  cases h with
  | zero =>
    simp [PartitionHandle.openFresh, vecInsert, List.get?, Bit.get_bit]
  | succ m =>
    simp [PartitionHandle.openFresh, vecInsert, List.get?]

lemma free_page_openFresh (p : ℕ) :
    PartitionHandle.openFresh.free_page p =
      POut.err PartitionHandle.openFresh .notAllocated := by
  unfold PartitionHandle.free_page
  simp [PartitionHandle.openFresh, List.get?]

lemma openFresh_master :
    PartitionHandle.openFresh.master_page = [] := rfl

lemma openFresh_headers :
    PartitionHandle.openFresh.header_pages = [] := rfl

lemma collectAux_openFresh (n i : ℕ) :
    PartitionHandle.collectAux PartitionHandle.openFresh i n = .ok [] := by
  induction n generalizing i with
  | zero => rfl
  | succ m ih =>
    unfold PartitionHandle.collectAux
    simp [openFresh_master, openFresh_headers, List.get?, ih]

lemma free_data_pages_openFresh :
    PartitionHandle.openFresh.free_data_pages =
      POut.ok PartitionHandle.openFresh () := by
  unfold PartitionHandle.free_data_pages PartitionHandle.collectAll
  rw [collectAux_openFresh]
  rfl

/-- Every reachable state is the fresh state: from a fresh open, no
allocation or free ever succeeds (the master vector is empty, so
`alloc_page` finds no slot; a lazily created bitmap has length 0, so
`alloc_page_specific` hits an IllegalArgument error; nothing is allocated,
so `free_page` errors), and `free_data_pages` succeeds without change. -/
lemma reachable_eq {s : PartitionHandle} (hr : Reachable s) :
    s = PartitionHandle.openFresh := by
  induction hr with
  | base => rfl
  | openNew _ hstep ih =>
    subst ih
    cases hstep
    rfl
  | openExisting _ hstep _ =>
    cases hstep
  | allocPage _ hstep ih =>
    subst ih
    rw [alloc_page_openFresh] at hstep
    cases hstep
  | allocSpecific _ hstep ih =>
    subst ih
    exact absurd hstep (alloc_page_specific_openFresh_not_ok _ _ _ _)
  | freePage _ hstep ih =>
    subst ih
    rw [free_page_openFresh] at hstep
    cases hstep
  | freeAll _ hstep ih =>
    subst ih
    rw [free_data_pages_openFresh] at hstep
    cases hstep
    rfl

/-- C1.  Every partition state reachable by successful open / alloc_page /
alloc_page_specific / free_page / free_data_pages operations satisfies the
master-counter invariant: for every header slot with a loaded bitmap, the
master counter equals the bitmap popcount.  (From a fresh open no
allocation ever succeeds, so reachable states have no loaded bitmaps and
the invariant holds.) -/
theorem partition_reachable_master_matches_bitmaps (s : PartitionHandle)
    (hr : Reachable s) : masterMatchesBitmaps s := by
  rw [reachable_eq hr]
  intro h hh
  simp [PartitionHandle.openFresh] at hh

/-- Witness for C1 at the freshly opened state. -/
theorem partition_reachable_master_matches_bitmaps_witness :
    masterMatchesBitmaps PartitionHandle.openFresh :=
  partition_reachable_master_matches_bitmaps PartitionHandle.openFresh
    Reachable.base

/-- C2 (code evaluated at the failing input).  On a fresh partition,
`alloc_page_specific(0, 0)` does NOT allocate and return local page 0: the
lazily created bitmap is a zero-length buffer, so `Bit::get_bit` fails with
IllegalArgument - and the empty bitmap stays inserted in `header_pages`. -/
theorem alloc_page_specific_fresh_illegal_argument :
    PartitionHandle.openFresh.alloc_page_specific 0 0 =
      POut.err ⟨[], [[]]⟩ .illegalArgument := by
  decide

/-- C3 (code evaluated at the failing input).  On a fresh partition the
first `alloc_page` does NOT return local page 0: the master vector is empty
(`Vec::with_capacity` only reserves), so the header scan finds no slot and
the call fails with the CapacityExceeded error. -/
theorem alloc_page_fresh_capacity_exceeded :
    PartitionHandle.openFresh.alloc_page =
      POut.err PartitionHandle.openFresh .capacityExceeded :=
  alloc_page_openFresh

/-- C4 (code evaluated at the failing input).  On a fresh partition, page 0
is unallocated (no bit is set anywhere), yet `is_not_allocated_page`
returns false (the empty master vector bypasses the zero-counter check and
no bitmap is loaded), so `read_page` and `write_page` proceed with the file
I/O instead of failing with NotAllocated. -/
theorem read_write_page_fresh_not_flagged :
    PartitionHandle.openFresh.is_not_allocated_page 0 = Res.ok false ∧
      PartitionHandle.openFresh.read_page 0 = Res.ok () ∧
      PartitionHandle.openFresh.write_page 0 = Res.ok () := by
  refine ⟨?_, ?_, ?_⟩ <;> decide

/-- C7 (code evaluated at the failing input).  `alloc_page_specific(0, 0)`
on a fresh partition returns an error, yet the in-memory state is NOT as it
was before the call: a zero-length header bitmap has been inserted, and the
change is observable (`read_page(0)` now propagates an IllegalArgument
error where it previously returned ok). -/
theorem alloc_page_specific_error_mutates_state :
    PartitionHandle.openFresh.alloc_page_specific 0 0 =
      POut.err ⟨[], [[]]⟩ .illegalArgument ∧
      (⟨[], [[]]⟩ : PartitionHandle) ≠ PartitionHandle.openFresh ∧
      PartitionHandle.read_page ⟨[], [[]]⟩ 0 = Res.err .illegalArgument ∧
      PartitionHandle.openFresh.read_page 0 = Res.ok () := by
  refine ⟨?_, ?_, ?_, ?_⟩ <;> decide

/-- C10.  When `free_page(p)` succeeds, every header-bitmap bit other than
bit `p % DATA_PAGES_PER_HEADER` of header `p / DATA_PAGES_PER_HEADER` reads
exactly as before the call: freeing one page never changes the allocation
bit of any other page. -/
theorem free_page_frame_other_bits (s s' : PartitionHandle) (p : ℕ)
    (hf : s.free_page p = POut.ok s' ()) :
    ∀ h j : ℕ,
      ¬(h = p / DATA_PAGES_PER_HEADER ∧ j = p % DATA_PAGES_PER_HEADER) →
      Bit.get_bit (s'.header_pages.getD h []) j =
        Bit.get_bit (s.header_pages.getD h []) j := by
  intro h j hne
  unfold PartitionHandle.free_page at hf
  dsimp only at hf
  cases hc : s.header_pages.get? (p / DATA_PAGES_PER_HEADER) with
  | none =>
    simp only [hc] at hf
    exact (POut.noConfusion hf)
  | some content =>
    simp only [hc] at hf
    cases hg : Bit.get_bit content (p % DATA_PAGES_PER_HEADER) with
    | err e =>
      simp only [hg] at hf
      exact (POut.noConfusion hf)
    | ok b =>
      cases b with
      | zero =>
        simp only [hg] at hf
        exact (POut.noConfusion hf)
      | one =>
        simp only [hg] at hf
        cases hs : Bit.set_bit content (p % DATA_PAGES_PER_HEADER) .zero with
        | ub =>
          simp only [hs] at hf
          exact (POut.noConfusion hf)
        | err e =>
          simp only [hs] at hf
          exact (POut.noConfusion hf)
        | ok content2 =>
          simp only [hs] at hf
          cases hv : vecInsert s.master_page (p / DATA_PAGES_PER_HEADER)
              (Bit.count_ones content2 % 65536) with
          | none =>
            simp only [hv] at hf
            exact (POut.noConfusion hf)
          | some mp =>
            simp only [hv] at hf
            cases hf
            dsimp only
            by_cases hh : h = p / DATA_PAGES_PER_HEADER
            · subst hh
              rw [getD_set_self _ _ _ _ (get?_some_lt hc),
                getD_eq_of_get? ([] : List ℕ) hc]
              exact set_bit_frame hs j (fun hj => hne ⟨rfl, hj⟩)
            · rw [getD_set_ne _ _ _ _ _ (fun he => hh he.symm)]

/-- Witness for C10: freeing page 0 of a one-byte bitmap with only bit 0
set leaves bit 1 reading as before. -/
theorem free_page_frame_other_bits_witness :
    PartitionHandle.free_page ⟨[1], [[128]]⟩ 0 = POut.ok ⟨[0, 1], [[0]]⟩ () ∧
      Bit.get_bit ((⟨[0, 1], [[0]]⟩ : PartitionHandle).header_pages.getD 0 []) 1 =
        Bit.get_bit ((⟨[1], [[128]]⟩ : PartitionHandle).header_pages.getD 0 []) 1 :=
  ⟨by decide,
    free_page_frame_other_bits ⟨[1], [[128]]⟩ ⟨[0, 1], [[0]]⟩ 0 (by decide) 0 1
      (by decide)⟩

/-! ### Physical layout (offset arithmetic) -/

/-- The `PAGE_SIZE`-byte regions at file offsets `a` and `b` do not
overlap. -/
def regionsDisjoint (a b : ℕ) : Prop :=
  a + PAGE_SIZE ≤ b ∨ b + PAGE_SIZE ≤ a

/-- The C8 layout property for header/page indices `(h1, j1)` and
`(h2, j2)`: pairwise disjointness of the master region, the header regions
and the data regions, and strict increase of offsets in layout order
(master, header h, the data pages of header h, header h+1, ...). -/
def layoutProps (h1 j1 h2 j2 : ℕ) : Prop :=
  regionsDisjoint PartitionHandle.master_page_offset
      (PartitionHandle.header_page_offset h1) ∧
  regionsDisjoint PartitionHandle.master_page_offset
      (PartitionHandle.data_page_offset (j1 + h1 * DATA_PAGES_PER_HEADER)) ∧
  (h1 ≠ h2 → regionsDisjoint (PartitionHandle.header_page_offset h1)
      (PartitionHandle.header_page_offset h2)) ∧
  regionsDisjoint (PartitionHandle.header_page_offset h1)
      (PartitionHandle.data_page_offset (j2 + h2 * DATA_PAGES_PER_HEADER)) ∧
  (j1 + h1 * DATA_PAGES_PER_HEADER ≠ j2 + h2 * DATA_PAGES_PER_HEADER →
    regionsDisjoint
      (PartitionHandle.data_page_offset (j1 + h1 * DATA_PAGES_PER_HEADER))
      (PartitionHandle.data_page_offset (j2 + h2 * DATA_PAGES_PER_HEADER))) ∧
  PartitionHandle.master_page_offset <
    PartitionHandle.header_page_offset h1 ∧
  PartitionHandle.header_page_offset h1 <
    PartitionHandle.data_page_offset (j1 + h1 * DATA_PAGES_PER_HEADER) ∧
  (j1 < j2 ∧ h1 = h2 →
    PartitionHandle.data_page_offset (j1 + h1 * DATA_PAGES_PER_HEADER) <
      PartitionHandle.data_page_offset (j2 + h2 * DATA_PAGES_PER_HEADER)) ∧
  (h1 < h2 →
    PartitionHandle.data_page_offset (j1 + h1 * DATA_PAGES_PER_HEADER) <
      PartitionHandle.header_page_offset h2)

/-- C8.  For all in-range header/page indices, the master page, the header
pages and the data pages occupy pairwise disjoint `PAGE_SIZE` regions, with
offsets strictly increasing in the order master, header 0, its data pages,
header 1, its data pages, and so on. -/
theorem layout_offsets_disjoint_increasing (h1 j1 h2 j2 : ℕ)
    (hh1 : h1 < MAX_HEADER_PAGE) (hj1 : j1 < DATA_PAGES_PER_HEADER)
    (hh2 : h2 < MAX_HEADER_PAGE) (hj2 : j2 < DATA_PAGES_PER_HEADER) :
    layoutProps h1 j1 h2 j2 := by
  unfold layoutProps regionsDisjoint PartitionHandle.master_page_offset
    PartitionHandle.header_page_offset PartitionHandle.data_page_offset
  unfold DATA_PAGES_PER_HEADER MAX_HEADER_PAGE PAGE_SIZE at *
  omega

/-- Witness for C8 at `(h1, j1) = (0, 0)` and `(h2, j2) = (1, 1)`. -/
theorem layout_offsets_disjoint_increasing_witness :
    (0 < MAX_HEADER_PAGE) ∧ (0 < DATA_PAGES_PER_HEADER) ∧
      (1 < MAX_HEADER_PAGE) ∧ (1 < DATA_PAGES_PER_HEADER) ∧
      layoutProps 0 0 1 1 :=
  ⟨by decide, by decide, by decide, by decide,
    layout_offsets_disjoint_increasing 0 0 1 1 (by decide) (by decide)
      (by decide) (by decide)⟩

/-! ### Virtual page numbers (src/io/storage.rs) -/

namespace StorageManager

/-- `StorageManager::get_part_num`: `page / 10_000_000_000` (usize
division, no wrap possible). -/
def get_part_num (page : ℕ) : ℕ := page / 10000000000

/-- `StorageManager::get_page_num`: `page % 10_000_000_000`. -/
def get_page_num (page : ℕ) : ℕ := page % 10000000000

/-- `StorageManager::get_virtual_page_num`:
`part_num * 10_000_000_000 + page_num` computed in `usize` (64-bit), hence
reduced modulo `2 ^ 64`. -/
def get_virtual_page_num (part_num page_num : ℕ) : ℕ :=
  (part_num * 10000000000 + page_num) % 18446744073709551616

end StorageManager

/-- C9 counterexample: the round trip fails for a partition number large
enough that `part * 10^10` wraps in 64-bit arithmetic - at
`part = 1844674408`, `page = 0`, `get_part_num (get_virtual_page_num part
page)` is 0, not `part`. -/
theorem virtual_page_roundtrip_overflow_counterexample :
    ¬ (∀ part page : ℕ, page < 10000000000 →
        StorageManager.get_part_num
            (StorageManager.get_virtual_page_num part page) = part ∧
          StorageManager.get_page_num
            (StorageManager.get_virtual_page_num part page) = page) := by
  intro hcl
  have h := (hcl 1844674408 0 (by norm_num)).1
  have hv : StorageManager.get_part_num
      (StorageManager.get_virtual_page_num 1844674408 0) = 0 := by decide
  rw [hv] at h
  exact absurd h (by norm_num)

/-- C9 as amended: when `page < 10^10` and `part * 10^10 + page` fits in 64
bits (no usize wrap), both round trips hold, and `10^10` exceeds the
maximum local page number `MAX_HEADER_PAGE * DATA_PAGES_PER_HEADER`; the
round trips make the mapping a bijection between such pairs and their
virtual page numbers. -/
theorem virtual_page_roundtrip_no_overflow (part page : ℕ)
    (hpage : page < 10000000000)
    (hfit : part * 10000000000 + page < 18446744073709551616) :
    StorageManager.get_part_num
        (StorageManager.get_virtual_page_num part page) = part ∧
      StorageManager.get_page_num
        (StorageManager.get_virtual_page_num part page) = page ∧
      MAX_HEADER_PAGE * DATA_PAGES_PER_HEADER < 10000000000 := by
  unfold StorageManager.get_part_num StorageManager.get_page_num
    StorageManager.get_virtual_page_num
  rw [Nat.mod_eq_of_lt hfit]
  refine ⟨by omega, by omega, ?_⟩
  norm_num [MAX_HEADER_PAGE, DATA_PAGES_PER_HEADER, PAGE_SIZE]

/-- Witness for the amended C9 at `part = 3`, `page = 5`. -/
theorem virtual_page_roundtrip_no_overflow_witness :
    (5 : ℕ) < 10000000000 ∧
      (3 : ℕ) * 10000000000 + 5 < 18446744073709551616 ∧
      (StorageManager.get_part_num
          (StorageManager.get_virtual_page_num 3 5) = 3 ∧
        StorageManager.get_page_num
          (StorageManager.get_virtual_page_num 3 5) = 5 ∧
        MAX_HEADER_PAGE * DATA_PAGES_PER_HEADER < 10000000000) :=
  ⟨by norm_num, by norm_num,
    virtual_page_roundtrip_no_overflow 3 5 (by norm_num) (by norm_num)⟩

end RookieDb
